import Mathlib

/-!
# Verification of the Fletcher-Reeves conjugate-gradient optimizer

Shallow embedding of `src/ncg_optimizer/fr.py` (class `FR`).  Tensors are
modelled as lists of reals, `torch.norm` as the Euclidean norm, the
per-parameter PyTorch state dict as a record of optional fields (a missing
dict key is `none`, and reading a missing key raises `StepErr`), and the
external collaborators (the three line searches and the autodiff curvature
routine `FR._get_A`) as abstract oracle functions.  Constructor validation
is modelled separately over `ℚ` so that it is decidable.
-/

namespace FRopt

/-- A tensor, flattened to a list of real entries. -/
abbrev Vec := List ℝ

/-- `torch.dot`: elementwise product, summed. -/
def dotV (a b : Vec) : ℝ := (List.zipWith (fun x y => x * y) a b).sum

/-- Elementwise negation (`-t`). -/
def negV (a : Vec) : Vec := a.map (fun x => -x)

/-- Elementwise addition. -/
def addV (a b : Vec) : Vec := List.zipWith (fun x y => x + y) a b

/-- Scalar multiple of a tensor. -/
def smulV (c : ℝ) (a : Vec) : Vec := a.map (fun x => c * x)

/-- `torch.norm`: the Euclidean (ℓ2) norm. -/
noncomputable def normV (a : Vec) : ℝ := Real.sqrt (dotV a a)

/-- A matrix as a list of rows. -/
abbrev Mat := List Vec

/-- `torch.matmul` of a matrix with a vector. -/
def matVec (A : Mat) (v : Vec) : Vec := A.map (fun r => dotV r v)

/-- The `line_search` configuration tag (`'None'`, `'Armijo'`, `'Wolfe'`,
`'Strong_Wolfe'`). -/
inductive LineSearchKind where
  | LSNone
  | Armijo
  | Wolfe
  | StrongWolfe
deriving DecidableEq

/-- The per-group hyperparameters stored in `defaults` by `FR.__init__`. -/
structure Config where
  eps : ℝ
  line_search : LineSearchKind
  c1 : ℝ
  c2 : ℝ
  lr : ℝ
  rho : ℝ
  eta : ℝ
  amax : ℝ
  max_ls : ℕ

/-- The per-parameter state dict `self.state[p]`.  Key `'g'` is present in
every non-empty state; the other keys may be absent (`none`). -/
structure PState where
  g : Vec
  beta : Option ℝ
  d : Option Vec
  index : Option Bool
  stepCount : Option ℕ
  A : Option Mat

/-- A parameter tensor together with its (possibly undefined) gradient. -/
structure Param where
  data : Vec
  grad : Option Vec

/-- Python `KeyError` on the state dict, tagged by the missing key. -/
inductive StepErr where
  | keyError_d
  | keyError_index
  | keyError_A
  | keyError_step
deriving DecidableEq

/-- The external collaborators of `FR.step`: the three line-search
procedures (each receives the tensors and hyperparameters the code passes)
and the autodiff curvature routine `FR._get_A`, which the code calls with
the parameter and its live gradient.  Each is an arbitrary function: the
core is verified for every behaviour of the collaborators. -/
structure Oracles where
  armijo : Vec → Vec → Vec → ℝ → ℝ → ℝ → ℕ → ℝ
  wolfe : Vec → Vec → Vec → ℝ → ℝ → ℝ → ℝ → ℕ → ℕ → ℝ
  strong_wolfe : Vec → Vec → Vec → ℝ → ℝ → ℝ → ℝ → ℕ → ℝ
  getA : Vec → Vec → Mat

/-- `FR.Exact(A, d_p, d)`: `alpha = (-d · d_p) / (d · (A d))`. -/
noncomputable def Exact (A : Mat) (d_p : Vec) (d : Vec) : ℝ :=
  dotV (negV d) d_p / dotV d (matVec A d)

/-- Lines 157-184 of `FR.step`: the per-parameter state transition.
Returns the new state together with the early-return flag (`true` when the
`torch.norm(state['g']) < eps` stop condition fired). -/
noncomputable def stateTransition (eps : ℝ) (st0 : Option PState) (d_p : Vec) :
    Except StepErr (PState × Bool) :=
  match st0 with
  | none =>
    if normV d_p < eps then
      .ok ({ g := d_p, beta := none, d := none, index := none,
             stepCount := none, A := none }, true)
    else
      .ok ({ g := d_p, beta := none, d := some (negV d_p), index := some true,
             stepCount := some 0, A := none }, false)
  | some s =>
    if normV d_p < eps then
      .ok ({ s with beta := some (normV d_p / normV s.g), g := d_p }, true)
    else
      match s.d with
      | none => .error .keyError_d
      | some d1 =>
        .ok ({ s with
               beta := some (normV d_p / normV s.g),
               g := d_p,
               d := some (addV (negV d_p)
                          (smulV (normV d_p / normV s.g) d1)),
               index := some false }, false)

/-- Lines 195-211 of `FR.step`: dispatch on `line_search` to compute the
step length `alpha`, returning it with the (possibly updated) state. -/
noncomputable def lineSearchDispatch (cfg : Config) (orc : Oracles)
    (pdata d_p : Vec) (st : PState) : Except StepErr (ℝ × PState) :=
  match st.d with
  | none => .error .keyError_d
  | some d =>
    match cfg.line_search with
    | .LSNone =>
      match st.index with
      | none => .error .keyError_index
      | some idx =>
        if idx then
          .ok (Exact (orc.getA pdata d_p) d_p d,
               { st with A := some (orc.getA pdata d_p) })
        else
          match st.A with
          | none => .error .keyError_A
          | some A => .ok (Exact A d_p d, st)
    | .Armijo =>
      .ok (orc.armijo pdata st.g d cfg.lr cfg.rho cfg.c1 cfg.max_ls, st)
    | .Wolfe =>
      match st.stepCount with
      | none => .error .keyError_step
      | some k =>
        .ok (orc.wolfe pdata d_p d cfg.lr cfg.c1 cfg.c2 cfg.eta k cfg.max_ls,
             { st with stepCount := some (k + 1) })
    | .StrongWolfe =>
      .ok (orc.strong_wolfe pdata d_p d cfg.lr cfg.c1 cfg.c2 cfg.amax
             cfg.max_ls, st)

/-- The whole per-parameter body of the loop in `FR.step` (for a parameter
whose gradient `d_p` is defined): state transition, then — unless the early
return fired — step-length dispatch and the in-place update
`p.data.add_(state['d'], alpha=alpha)`.  The `Bool` is the early-return
flag. -/
noncomputable def procParam (cfg : Config) (orc : Oracles) (p : Param)
    (st0 : Option PState) (d_p : Vec) : Except StepErr (Param × PState × Bool) :=
  match stateTransition cfg.eps st0 d_p with
  | .error e => .error e
  | .ok (st, true) => .ok (p, st, true)
  | .ok (st, false) =>
    match lineSearchDispatch cfg orc p.data d_p st with
    | .error e => .error e
    | .ok (alpha, st') =>
      match st'.d with
      | none => .error .keyError_d
      | some d => .ok ({ p with data := addV p.data (smulV alpha d) }, st', false)

/-- The parameter loop of `FR.step` over the (flattened) parameter list,
each parameter paired with its current state (`none` models an empty state
dict).  Parameters with undefined gradient are skipped.  The `Bool` records
whether an early `return loss` fired, in which case the remaining
parameters are left untouched. -/
noncomputable def stepLoop (cfg : Config) (orc : Oracles) :
    List (Param × Option PState) → Except StepErr (List (Param × Option PState) × Bool)
  | [] => .ok ([], false)
  | (p, st) :: rest =>
    match p.grad with
    | none =>
      match stepLoop cfg orc rest with
      | .error e => .error e
      | .ok (r, e) => .ok ((p, st) :: r, e)
    | some d_p =>
      match procParam cfg orc p st d_p with
      | .error e => .error e
      | .ok (p', st', early) =>
        if early then .ok ((p', some st') :: rest, true)
        else
          match stepLoop cfg orc rest with
          | .error e => .error e
          | .ok (r, e) => .ok ((p', some st') :: r, e)

/-- `FR.step(closure)`: the closure's loss value is captured first and is
what the method returns, whether or not an early return fires. -/
noncomputable def stepFR (cfg : Config) (orc : Oracles) (loss : Option ℝ)
    (ps : List (Param × Option PState)) :
    Except StepErr (List (Param × Option PState) × Option ℝ) :=
  match stepLoop cfg orc ps with
  | .error e => .error e
  | .ok (r, _) => .ok (r, loss)

/-- `FR.__init__` validation (lines 63-95), modelled over `ℚ` so that it is
decidable.  Returns the message of the first `ValueError` raised, or `none`
when construction succeeds. -/
def checkInit (eps c1 c2 lr rho eta amax max_ls : ℚ) (line_search : String) :
    Option String :=
  if eps < 0 then some "Invalid epsilon value"
  else if ¬ (line_search = "Armijo" ∨ line_search = "Wolfe" ∨
             line_search = "Strong_Wolfe" ∨ line_search = "None") then
    some "Invalid line search"
  else if ¬ (0 < c1 ∧ c1 < 1/2) then some "Invalid c1 value"
  else if ¬ (c1 < c2 ∧ c2 < 1) then some "Invalid c2 value"
  else if lr < 0 then some "Invalid lr value"
  else if ¬ (0 < rho ∧ rho < 1) then some "Invalid rho value"
  else if ¬ (1 < eta) then some "Invalid eta value"
  else if ¬ (0 < amax) then some "Invalid amax value"
  else if max_ls.den ≠ 1 ∨ max_ls ≤ 0 then some "Invalid max_ls value"
  else none

/-! ## Evaluation helpers -/

lemma sqrt_eq_of_sq {a b : ℝ} (hb : 0 ≤ b) (h : b ^ 2 = a) : Real.sqrt a = b := by
  rw [← h]; exact Real.sqrt_sq hb

lemma dotV_pair (x y u v : ℝ) : dotV [x, y] [u, v] = x * u + y * v := by
  simp [dotV]

lemma normV_eval {x y b : ℝ} (hb : 0 ≤ b) (h : x * x + y * y = b ^ 2) :
    normV [x, y] = b := by
  rw [normV, dotV_pair, h]; exact Real.sqrt_sq hb

lemma normV_34 : normV [3, 4] = 5 := normV_eval (by norm_num) (by norm_num)

lemma normV_68 : normV [6, 8] = 10 := normV_eval (by norm_num) (by norm_num)

lemma normV_00 : normV [0, 0] = 0 := normV_eval le_rfl (by norm_num)

/-! ## Claims about the state transition (lines 157-184 of `FR.step`) -/

/-- C5: on the first step for a parameter (no prior state) with gradient
`g` of norm at least `eps`, the stored direction is `-g`, the
first-iteration flag `index` is `true` and the Wolfe counter is `0`. -/
theorem init_direction_is_neg_gradient (eps : ℝ) (d_p : Vec)
    (h : eps ≤ normV d_p) :
    stateTransition eps none d_p =
      .ok ({ g := d_p, beta := none, d := some (negV d_p), index := some true,
             stepCount := some 0, A := none }, false) := by
  rw [stateTransition, if_neg (not_lt.2 h)]

/-- C5 witness: concrete first step with gradient `[3, 4]`, `eps = 1`. -/
theorem init_direction_is_neg_gradient_witness :
    stateTransition 1 none [3, 4] =
      .ok ({ g := [3, 4], beta := none, d := some (negV [3, 4]),
             index := some true, stepCount := some 0, A := none }, false) :=
  init_direction_is_neg_gradient 1 [3, 4] (by rw [normV_34]; norm_num)

/-- C1: on a subsequent step (prior state `s` with direction `d1`) with new
gradient `d_p` of norm at least `eps`, the new direction is
`-d_p + beta • d1` where `beta = ‖d_p‖ / ‖s.g‖` is the ratio of the plain
ℓ2 norms, computed against the previously stored gradient `s.g` (i.e.
before the stored gradient is overwritten by `d_p`). -/
theorem update_direction_fletcher_reeves (eps : ℝ) (s : PState) (d1 d_p : Vec)
    (hd : s.d = some d1) (h : eps ≤ normV d_p) :
    stateTransition eps (some s) d_p =
      .ok ({ g := d_p, beta := some (normV d_p / normV s.g),
             d := some (addV (negV d_p) (smulV (normV d_p / normV s.g) d1)),
             index := some false, stepCount := s.stepCount, A := s.A },
           false) := by
  rw [stateTransition, if_neg (not_lt.2 h), hd]

/-- C1 witness: previous gradient `[3, 4]` (norm 5), new gradient `[6, 8]`
(norm 10), so `beta = 10 / 5 = 2` (the norm ratio; the squared-norm ratio
would be 4). -/
theorem update_direction_fletcher_reeves_witness :
    stateTransition 1 (some ⟨[3, 4], none, some [1, 2], some false, some 0,
        none⟩) [6, 8] =
      .ok ({ g := [6, 8], beta := some (normV [6, 8] / normV [3, 4]),
             d := some (addV (negV [6, 8])
                        (smulV (normV [6, 8] / normV [3, 4]) [1, 2])),
             index := some false, stepCount := some 0, A := none }, false) ∧
    normV [6, 8] / normV [3, 4] = 2 := by
  constructor
  · exact update_direction_fletcher_reeves 1 _ [1, 2] [6, 8] rfl
      (by rw [normV_68]; norm_num)
  · rw [normV_68, normV_34]; norm_num

/-- C10: when the early return fires in the Update branch (prior state
exists and `‖g_new‖ < eps`), the returned state already has `beta` stored
and the gradient overwritten by `g_new`, while `d`, `index` and
`stepCount` keep their pre-call values: the early return is not
state-atomic. -/
theorem update_early_return_partial_mutation (eps : ℝ) (s : PState)
    (d_p : Vec) (h : normV d_p < eps) :
    stateTransition eps (some s) d_p =
      .ok ({ g := d_p, beta := some (normV d_p / normV s.g), d := s.d,
             index := s.index, stepCount := s.stepCount, A := s.A }, true) := by
  rw [stateTransition, if_pos h]

/-- C10 witness: prior state with direction `[1, 1]`, flag `false`, counter
`5`; new gradient `[0, 0]` of norm `0 < 1 = eps`. -/
theorem update_early_return_partial_mutation_witness :
    stateTransition 1 (some ⟨[3, 4], none, some [1, 1], some false, some 5,
        none⟩) [0, 0] =
      .ok ({ g := [0, 0], beta := some (normV [0, 0] / normV [3, 4]),
             d := some [1, 1], index := some false, stepCount := some 5,
             A := none }, true) :=
  update_early_return_partial_mutation 1 _ [0, 0] (by rw [normV_00]; norm_num)

/-- C9: if a parameter's state was created on a call where its first
gradient `g0` had norm below `eps` (so the state stores only the gradient),
then a later call with gradient `g1` of norm at least `eps` raises a
missing-key error for `state['d']` when forming the new direction. -/
theorem stale_state_missing_direction_key (eps : ℝ) (g0 g1 : Vec)
    (h0 : normV g0 < eps) (h1 : eps ≤ normV g1) :
    ∃ s : PState, stateTransition eps none g0 = .ok (s, true) ∧
      stateTransition eps (some s) g1 = .error .keyError_d := by
  refine ⟨{ g := g0, beta := none, d := none, index := none,
            stepCount := none, A := none }, ?_, ?_⟩
  · rw [stateTransition, if_pos h0]
  · rw [stateTransition, if_neg (not_lt.2 h1)]

/-- C9 witness: first gradient `[0, 0]` (norm 0 < 1), later gradient
`[3, 4]` (norm 5 ≥ 1). -/
theorem stale_state_missing_direction_key_witness :
    ∃ s : PState, stateTransition 1 none [0, 0] = .ok (s, true) ∧
      stateTransition 1 (some s) [3, 4] = .error .keyError_d :=
  stale_state_missing_direction_key 1 [0, 0] [3, 4]
    (by rw [normV_00]; norm_num) (by rw [normV_34]; norm_num)

/-! ## Claims about constructor validation (lines 63-95 of `FR.__init__`) -/

/-- C4 counterexample: construction with `eps = 0` (outside the documented
range `eps > 0`, and exactly at the open-interval boundary) does NOT raise:
the code only rejects `eps < 0`.  All other arguments are valid defaults. -/
theorem checkInit_accepts_eps_zero :
    checkInit 0 (1/10000) (4/10) 1 (1/2) 5 (6/10) 10 "Armijo" = none := by
  norm_num [checkInit]

/-- C4 amended: construction raises exactly when `eps < 0`, or
`line_search` is not one of the four tags, or `c1` is outside `(0, 1/2)`,
or `c2` is outside `(c1, 1)`, or `lr < 0`, or `rho` is outside `(0, 1)`,
or `eta ≤ 1`, or `amax ≤ 0`, or `max_ls` is not a positive integer.  In
particular every open-interval boundary raises except `eps = 0`, which is
accepted. -/
theorem checkInit_error_characterization (eps c1 c2 lr rho eta amax max_ls : ℚ)
    (ls : String) :
    checkInit eps c1 c2 lr rho eta amax max_ls ls ≠ none ↔
      (eps < 0 ∨
       ¬ (ls = "Armijo" ∨ ls = "Wolfe" ∨ ls = "Strong_Wolfe" ∨ ls = "None") ∨
       ¬ (0 < c1 ∧ c1 < 1/2) ∨ ¬ (c1 < c2 ∧ c2 < 1) ∨ lr < 0 ∨
       ¬ (0 < rho ∧ rho < 1) ∨ ¬ (1 < eta) ∨ ¬ (0 < amax) ∨
       max_ls.den ≠ 1 ∨ max_ls ≤ 0) := by
  unfold checkInit
  split_ifs <;> simp_all

/-! ## Concrete fixtures used by witness instantiations -/

/-- Concrete collaborators for witness instantiations: each line search
returns a simple function of its arguments, and the curvature routine
returns the constant matrix `[[1, 0], [0, 2]]` (the Hessian of the
quadratic used in the finite-termination analysis below). -/
noncomputable def orcW : Oracles where
  armijo := fun _ _ _ lr _ _ _ => lr
  wolfe := fun _ _ _ _ _ _ _ k _ => (k : ℝ)
  strong_wolfe := fun _ _ _ _ _ _ amax _ => amax
  getA := fun _ _ => [[1, 0], [0, 2]]

/-- A valid configuration with `line_search = 'Armijo'`. -/
noncomputable def cfgA : Config := ⟨1, .Armijo, 1/10000, 4/10, 1, 1/2, 5, 6/10, 10⟩

/-- A valid configuration with `line_search = 'Wolfe'`. -/
noncomputable def cfgWolfe : Config := ⟨1, .Wolfe, 1/10000, 4/10, 1, 1/2, 5, 6/10, 10⟩

/-- A valid configuration with `line_search = 'None'`. -/
noncomputable def cfgN : Config := ⟨1, .LSNone, 1/10000, 4/10, 1, 1/2, 5, 6/10, 10⟩

/-! ## Claims about step-length dispatch (lines 195-211 of `FR.step`) -/

/-- C3: with `line_search = 'None'`, the curvature matrix is computed by
the autodiff collaborator only on a parameter's first iteration
(`index = true`) and stored in `state['A']`; on every iteration the step
length is `(-d · g_new) / (d · (A d))` where `A` is the cached matrix,
which later iterations (`index = false`) reuse without recomputation and
leave unchanged. -/
theorem exact_curvature_cached (cfg : Config) (orc : Oracles)
    (pdata d_p : Vec) (st : PState) (d : Vec)
    (h1 : cfg.line_search = .LSNone) (hd : st.d = some d) :
    (st.index = some true →
      lineSearchDispatch cfg orc pdata d_p st =
        .ok (dotV (negV d) d_p / dotV d (matVec (orc.getA pdata d_p) d),
             { st with A := some (orc.getA pdata d_p) })) ∧
    (∀ A : Mat, st.index = some false → st.A = some A →
      lineSearchDispatch cfg orc pdata d_p st =
        .ok (dotV (negV d) d_p / dotV d (matVec A d), st)) := by
  constructor
  · intro hidx
    simp [lineSearchDispatch, hd, h1, hidx, Exact]
  · intro A hidx hA
    simp [lineSearchDispatch, hd, h1, hidx, hA, Exact]

/-- C3 witness: a first-iteration state (curvature computed and cached) and
a later-iteration state (cached curvature reused, state unchanged). -/
theorem exact_curvature_cached_witness :
    lineSearchDispatch cfgN orcW [0, 0] [1, 1]
        ⟨[1, 1], none, some [1, 2], some true, some 0, none⟩ =
      .ok (dotV (negV [1, 2]) [1, 1] /
             dotV [1, 2] (matVec (orcW.getA [0, 0] [1, 1]) [1, 2]),
           ⟨[1, 1], none, some [1, 2], some true, some 0,
            some (orcW.getA [0, 0] [1, 1])⟩) ∧
    lineSearchDispatch cfgN orcW [0, 0] [1, 1]
        ⟨[1, 1], none, some [1, 2], some false, some 0,
         some [[1, 0], [0, 2]]⟩ =
      .ok (dotV (negV [1, 2]) [1, 1] / dotV [1, 2] (matVec [[1, 0], [0, 2]] [1, 2]),
           ⟨[1, 1], none, some [1, 2], some false, some 0,
            some [[1, 0], [0, 2]]⟩) := by
  constructor
  · exact (exact_curvature_cached cfgN orcW [0, 0] [1, 1] _ [1, 2] rfl rfl).1 rfl
  · exact (exact_curvature_cached cfgN orcW [0, 0] [1, 1] _ [1, 2] rfl
      rfl).2 [[1, 0], [0, 2]] rfl rfl

/-- C7: with `line_search = 'Wolfe'`, the step length is the value of the
Wolfe collaborator called with the current counter `state['step']`, and the
counter is then incremented by exactly 1; every other policy neither reads
nor modifies the counter (the counter passes through unchanged and has no
effect on the result). -/
theorem wolfe_uses_and_increments_counter (cfg : Config) (orc : Oracles)
    (pdata d_p : Vec) (st : PState) :
    (∀ d k, cfg.line_search = .Wolfe → st.d = some d →
      st.stepCount = some k →
      lineSearchDispatch cfg orc pdata d_p st =
        .ok (orc.wolfe pdata d_p d cfg.lr cfg.c1 cfg.c2 cfg.eta k cfg.max_ls,
             { st with stepCount := some (k + 1) })) ∧
    (cfg.line_search ≠ .Wolfe → ∀ c : Option ℕ,
      lineSearchDispatch cfg orc pdata d_p { st with stepCount := c } =
        Except.map (fun as => (as.1, { as.2 with stepCount := c }))
          (lineSearchDispatch cfg orc pdata d_p st)) := by
  obtain ⟨g, beta, dOpt, idxOpt, cnt, AOpt⟩ := st
  constructor
  · intro d k h1 hd hk
    simp only [PState.d] at hd
    simp only [PState.stepCount] at hk
    subst hd hk
    simp [lineSearchDispatch, h1]
  · intro hne c
    cases dOpt with
    | none => cases h : cfg.line_search <;> simp [lineSearchDispatch, h, Except.map]
    | some d =>
      cases h : cfg.line_search with
      | LSNone =>
        cases idxOpt with
        | none => simp [lineSearchDispatch, h, Except.map]
        | some idx =>
          cases idx with
          | true => simp [lineSearchDispatch, h, Except.map]
          | false =>
            cases AOpt with
            | none => simp [lineSearchDispatch, h, Except.map]
            | some A => simp [lineSearchDispatch, h, Except.map]
      | Armijo => simp [lineSearchDispatch, h, Except.map]
      | Wolfe => exact absurd h hne
      | StrongWolfe => simp [lineSearchDispatch, h, Except.map]

/-- C7 witness: with counter 3 the Wolfe collaborator (which here returns
its counter argument) yields `alpha = 3` and the stored counter becomes 4;
with `line_search = 'Armijo'` the counter passes through untouched. -/
theorem wolfe_uses_and_increments_counter_witness :
    lineSearchDispatch cfgWolfe orcW [0, 0] [1, 1]
        ⟨[1, 1], none, some [1, 2], some false, some 3, none⟩ =
      .ok (orcW.wolfe [0, 0] [1, 1] [1, 2] cfgWolfe.lr cfgWolfe.c1
             cfgWolfe.c2 cfgWolfe.eta 3 cfgWolfe.max_ls,
           ⟨[1, 1], none, some [1, 2], some false, some 4, none⟩) ∧
    lineSearchDispatch cfgA orcW [0, 0] [1, 1]
        ⟨[1, 1], none, some [1, 2], some false, some 9, none⟩ =
      Except.map (fun as => (as.1, { as.2 with stepCount := some 9 }))
        (lineSearchDispatch cfgA orcW [0, 0] [1, 1]
          ⟨[1, 1], none, some [1, 2], some false, some 0, none⟩) := by
  constructor
  · exact (wolfe_uses_and_increments_counter cfgWolfe orcW [0, 0] [1, 1]
      _).1 [1, 2] 3 rfl rfl rfl
  · exact (wolfe_uses_and_increments_counter cfgA orcW [0, 0] [1, 1]
      ⟨[1, 1], none, some [1, 2], some false, some 0, none⟩).2
      (by simp [cfgA]) (some 9)

/-! ## Claims about the parameter loop (lines 148-215 of `FR.step`) -/

/-- C8: a parameter with undefined gradient is skipped: its tensor and its
state are returned exactly as they were, and the loop continues with the
remaining parameters. -/
theorem skip_missing_gradient (cfg : Config) (orc : Oracles) (p : Param)
    (st : Option PState) (rest : List (Param × Option PState))
    (h : p.grad = none) :
    stepLoop cfg orc ((p, st) :: rest) =
      Except.map (fun r => ((p, st) :: r.1, r.2)) (stepLoop cfg orc rest) := by
  simp only [stepLoop, h]
  cases hr : stepLoop cfg orc rest with
  | error e => simp [Except.map]
  | ok v => obtain ⟨r, e⟩ := v; simp [Except.map]

/-- C8 witness: a single parameter with no gradient is returned untouched
and the loop terminates normally. -/
theorem skip_missing_gradient_witness :
    stepLoop cfgA orcW [(⟨[1], none⟩, none)] = .ok ([(⟨[1], none⟩, none)], false) := by
  rw [skip_missing_gradient cfgA orcW ⟨[1], none⟩ none [] rfl]
  simp [stepLoop, Except.map]

/-- Processing a prefix that finished without an early return distributes
over list append in the parameter loop. -/
lemma stepLoop_append (cfg : Config) (orc : Oracles) :
    ∀ (pre pre' l : List (Param × Option PState)),
      stepLoop cfg orc pre = .ok (pre', false) →
      stepLoop cfg orc (pre ++ l) =
        Except.map (fun r => (pre' ++ r.1, r.2)) (stepLoop cfg orc l) := by
  intro pre
  induction pre with
  | nil =>
    intro pre' l h
    simp only [stepLoop, Except.ok.injEq, Prod.mk.injEq] at h
    obtain ⟨h1, -⟩ := h
    subst h1
    cases hl : stepLoop cfg orc l with
    | error e => simp [Except.map, hl]
    | ok v => simp [Except.map, hl]
  | cons hd tl ih =>
    intro pre' l h
    obtain ⟨p, st⟩ := hd
    rw [List.cons_append]
    cases hg : p.grad with
    | none =>
      simp only [stepLoop, hg] at h ⊢
      cases htl : stepLoop cfg orc tl with
      | error e => rw [htl] at h; exact absurd h (by simp)
      | ok v =>
        obtain ⟨r, e⟩ := v
        rw [htl] at h
        simp only [Except.ok.injEq, Prod.mk.injEq] at h
        obtain ⟨h1, h2⟩ := h
        subst h2
        subst h1
        rw [ih r l htl]
        cases hl : stepLoop cfg orc l with
        | error e => simp [Except.map, hl]
        | ok v => simp [Except.map, hl]
    | some d_p =>
      simp only [stepLoop, hg] at h ⊢
      cases hp : procParam cfg orc p st d_p with
      | error e => rw [hp] at h; exact absurd h (by simp)
      | ok v =>
        obtain ⟨p', st', early⟩ := v
        rw [hp] at h
        cases early with
        | true => simp at h
        | false =>
          simp only [Bool.false_eq_true, if_false] at h ⊢
          cases htl : stepLoop cfg orc tl with
          | error e => rw [htl] at h; exact absurd h (by simp)
          | ok v =>
            obtain ⟨r, e⟩ := v
            rw [htl] at h
            simp only [Except.ok.injEq, Prod.mk.injEq] at h
            obtain ⟨h1, h2⟩ := h
            subst h2
            subst h1
            rw [ih r l htl]
            cases hl : stepLoop cfg orc l with
            | error e => simp [Except.map, hl]
            | ok v => simp [Except.map, hl]

/-- Both state-transition branches return early, with the parameter tensor
untouched, as soon as the fresh gradient's norm is below `eps`. -/
lemma procParam_early (cfg : Config) (orc : Oracles) (p : Param)
    (st0 : Option PState) (d_p : Vec) (h : normV d_p < cfg.eps) :
    ∃ st' : PState, procParam cfg orc p st0 d_p = .ok (p, st', true) := by
  cases st0 with
  | none =>
    exact ⟨⟨d_p, none, none, none, none, none⟩,
      by simp only [procParam, stateTransition, if_pos h]⟩
  | some s =>
    exact ⟨{ s with beta := some (normV d_p / normV s.g), g := d_p },
      by simp only [procParam, stateTransition, if_pos h]⟩

/-- C2: if, while processing a parameter (first or subsequent iteration),
the fresh gradient's norm is below `eps`, then `step()` returns the
closure's loss for that call, that parameter's tensor is unchanged, and all
remaining parameters are skipped: none is updated and no state is created
or refreshed for them. -/
theorem early_return_frame (cfg : Config) (orc : Oracles) (loss : Option ℝ)
    (pre pre' rest : List (Param × Option PState)) (p : Param)
    (st0 : Option PState) (d_p : Vec)
    (hpre : stepLoop cfg orc pre = .ok (pre', false))
    (hg : p.grad = some d_p) (hnorm : normV d_p < cfg.eps) :
    ∃ st' : PState,
      stepFR cfg orc loss (pre ++ (p, st0) :: rest) =
        .ok (pre' ++ (p, some st') :: rest, loss) := by
  obtain ⟨st', hp⟩ := procParam_early cfg orc p st0 d_p hnorm
  refine ⟨st', ?_⟩
  have hl : stepLoop cfg orc (pre ++ (p, st0) :: rest) =
      .ok (pre' ++ (p, some st') :: rest, true) := by
    rw [stepLoop_append cfg orc pre pre' _ hpre]
    simp only [stepLoop, hg, hp]
    simp [Except.map]
  simp only [stepFR, hl]

/-- C2 witness: the first of two parameters has gradient `[0, 0]` of norm
`0 < 1 = eps`; `step()` returns the closure's loss `7`, the triggering
parameter's tensor `[2, 2]` is unchanged, and the second parameter (with a
defined gradient but no state) is left completely untouched. -/
theorem early_return_frame_witness :
    ∃ st' : PState,
      stepFR cfgA orcW (some 7)
          [(⟨[2, 2], some [0, 0]⟩, none), (⟨[9], some [9]⟩, none)] =
        .ok ([(⟨[2, 2], some [0, 0]⟩, some st'), (⟨[9], some [9]⟩, none)],
             some 7) :=
  early_return_frame cfgA orcW (some 7) [] [] [(⟨[9], some [9]⟩, none)]
    ⟨[2, 2], some [0, 0]⟩ none [0, 0] rfl rfl
    (by rw [normV_00]; simp [cfgA])

/-! ## Finite termination on quadratics (claim C6)

Driver for `step()` with `line_search='None'` on a single parameter and
the quadratic objective `f(x) = ½ xᵀ A x` (`A` symmetric): the closure
populates the gradient `A x` before each step. -/

/-- Iterate `FR.step` on one parameter of the quadratic with Hessian `Am`. -/
noncomputable def runCG (cfg : Config) (orc : Oracles) (Am : Mat) :
    ℕ → Vec → Option PState → Except StepErr (Vec × Option PState)
  | 0, x, st => .ok (x, st)
  | n + 1, x, st =>
    match procParam cfg orc { data := x, grad := some (matVec Am x) } st
        (matVec Am x) with
    | .error e => .error e
    | .ok (p', st', _) => runCG cfg orc Am n p'.data (some st')

/-- The configuration of the finite-termination scenario:
`line_search = 'None'`, `eps = 1e-3`. -/
noncomputable def cfg6 : Config := ⟨1/1000, .LSNone, 1/10000, 4/10, 1, 1/2, 5, 6/10, 10⟩

lemma normV_4836 : normV [48/41, -36/41] = 60/41 :=
  normV_eval (by norm_num) (by norm_num)

/-- First iteration on `f(x) = ½ xᵀ diag(1,2) x` from `x₀ = (3, 2)`:
gradient `(3, 4)`, direction `(-3, -4)`, exact step `25/41`, new point
`(48/41, -18/41)`, Hessian cached. -/
lemma cg_step1 :
    procParam cfg6 orcW ⟨[3, 2], some [3, 4]⟩ none [3, 4] =
      .ok (⟨[48/41, -18/41], some [3, 4]⟩,
           ⟨[3, 4], none, some [-3, -4], some true, some 0,
            some [[1, 0], [0, 2]]⟩, false) := by
  have h1 : ¬ normV [3, 4] < cfg6.eps := by
    rw [normV_34]; simp only [cfg6]; norm_num
  have hst : stateTransition cfg6.eps none [3, 4] =
      .ok (⟨[3, 4], none, some [-3, -4], some true, some 0, none⟩, false) := by
    simp only [stateTransition, if_neg h1]
    norm_num [negV]
  have hd : lineSearchDispatch cfg6 orcW [3, 2] [3, 4]
      ⟨[3, 4], none, some [-3, -4], some true, some 0, none⟩ =
      .ok (25/41, ⟨[3, 4], none, some [-3, -4], some true, some 0,
                   some [[1, 0], [0, 2]]⟩) := by
    simp only [lineSearchDispatch, cfg6, orcW, Exact]
    norm_num [dotV, negV, matVec]
  simp only [procParam, hst, hd]
  norm_num [addV, smulV]

/-- Second iteration: gradient `(48/41, -36/41)`, Fletcher-Reeves ratio
`beta = (60/41)/5 = 12/41` (the norm ratio the code uses), direction
`(-84/41, -12/41)`, cached Hessian reused, exact step `25/51`, new point
`(116/697, -406/697)`. -/
lemma cg_step2 :
    procParam cfg6 orcW ⟨[48/41, -18/41], some [48/41, -36/41]⟩
      (some ⟨[3, 4], none, some [-3, -4], some true, some 0,
             some [[1, 0], [0, 2]]⟩) [48/41, -36/41] =
      .ok (⟨[116/697, -406/697], some [48/41, -36/41]⟩,
           ⟨[48/41, -36/41], some (12/41), some [-84/41, -12/41], some false,
            some 0, some [[1, 0], [0, 2]]⟩, false) := by
  have hb : normV [48/41, -36/41] / normV [3, 4] = 12/41 := by
    rw [normV_4836, normV_34]; norm_num
  have h2 : ¬ normV [48/41, -36/41] < cfg6.eps := by
    rw [normV_4836]; simp only [cfg6]; norm_num
  have hst : stateTransition cfg6.eps
      (some ⟨[3, 4], none, some [-3, -4], some true, some 0,
             some [[1, 0], [0, 2]]⟩) [48/41, -36/41] =
      .ok (⟨[48/41, -36/41], some (12/41), some [-84/41, -12/41], some false,
            some 0, some [[1, 0], [0, 2]]⟩, false) := by
    simp only [stateTransition, if_neg h2]
    rw [hb]
    norm_num [addV, negV, smulV]
  have hd : lineSearchDispatch cfg6 orcW [48/41, -18/41] [48/41, -36/41]
      ⟨[48/41, -36/41], some (12/41), some [-84/41, -12/41], some false,
       some 0, some [[1, 0], [0, 2]]⟩ =
      .ok (25/51, ⟨[48/41, -36/41], some (12/41), some [-84/41, -12/41],
                   some false, some 0, some [[1, 0], [0, 2]]⟩) := by
    simp only [lineSearchDispatch, cfg6, orcW, Exact]
    norm_num [dotV, negV, matVec]
  simp only [procParam, hst, hd]
  norm_num [addV, smulV]

/-- C6 (violated by the code): on the pure quadratic
`f(x) = ½ xᵀ diag(1, 2) x` (dimension `n = 2`) from `x₀ = (3, 2)`, two
steps of the exact-line-search path leave the gradient norm at about
`1.18 ≥ eps`, so the classical CG `n`-step finite-termination property
fails.  The root cause: the code's non-canonical `beta` (plain norm ratio)
makes the second direction fail `A`-conjugacy against the first, whereas
the canonical Fletcher-Reeves squared-norm ratio would give an
`A`-conjugate direction (last two conjuncts). -/
theorem quadratic_no_finite_termination :
    runCG cfg6 orcW [[1, 0], [0, 2]] 2 [3, 2] none =
      .ok ([116/697, -406/697],
           some ⟨[48/41, -36/41], some (12/41), some [-84/41, -12/41],
                 some false, some 0, some [[1, 0], [0, 2]]⟩) ∧
    cfg6.eps ≤ normV (matVec [[1, 0], [0, 2]] [116/697, -406/697]) ∧
    dotV (addV (negV [48/41, -36/41])
          (smulV (dotV [48/41, -36/41] [48/41, -36/41] / dotV [3, 4] [3, 4])
            [-3, -4]))
        (matVec [[1, 0], [0, 2]] [-3, -4]) = 0 ∧
    dotV [-84/41, -12/41] (matVec [[1, 0], [0, 2]] [-3, -4]) ≠ 0 := by
  refine ⟨?_, ?_, ?_, ?_⟩
  · have hg0 : matVec [[1, 0], [0, 2]] [3, 2] = [3, 4] := by
      norm_num [matVec, dotV]
    have hg1 : matVec [[1, 0], [0, 2]] [48/41, -18/41] = [48/41, -36/41] := by
      norm_num [matVec, dotV]
    simp only [runCG, hg0, cg_step1, hg1, cg_step2]
  · have hm : matVec [[1, 0], [0, 2]] [116/697, -406/697] =
        [116/697, -812/697] := by
      norm_num [matVec, dotV]
    have hd : dotV [(116 : ℝ)/697, -812/697] [116/697, -812/697] =
        672800/485809 := by
      rw [dotV_pair]; norm_num
    rw [hm, normV, hd]
    show (1/1000 : ℝ) ≤ Real.sqrt (672800/485809)
    rw [Real.le_sqrt' (by norm_num)]
    norm_num
  · norm_num [dotV, addV, negV, smulV, matVec]
  · norm_num [dotV, matVec]

end FRopt
